import Mathlib

/-!
Verification of the asynchronous MCU telemetry and clock-synchronization
engine of the Kobra-S1 klipper sensor integrations
(src/klippy/extras/lis2dw12.py, src/klippy/extras/cs1237.py).

The Python code is shallowly embedded: the arbitrary-precision Python
integers become `Nat`/`Int`, Python floats become `ℚ` (the code only does
field arithmetic on them), byte strings become `List Nat`, and the
single-threaded callback interleavings relevant to the completion-slot
claims become explicit event traces.
-/

namespace KobraS1

/-! ## Sequence Reconciler (lis2dw12.py, `_update_clock` lines 292-304)

Python:
  sequence = (self.last_sequence & (~0xFFFF)) | params["next_sequence"]
  if sequence < self.last_sequence:
      sequence += 0x10000
  self.last_sequence = sequence

For a nonnegative Python int `last`, `last & ~0xFFFF` equals
`65536 * (last / 65536)`, and `| ns` with `ns < 65536` is addition.
The same code shape is used for `last_limit_count`. -/

def updateSequence (last ns : Nat) : Nat :=
  let s := 65536 * (last / 65536) + ns
  if s < last then s + 65536 else s

/-! ## Status poll retry loop (lis2dw12.py, `_update_clock` lines 277-290)

Python:
  for retry in range(5):
      try:
          params = self.query_sensor_status_cmd.send([self.oid], minclock)
          fifo = params.get("fifo", 0) & 0x7F
          if fifo <= 32:
              break
      except Exception as e:
          if retry == 4:
              raise self.printer.command_error(
                  "Unable to query lis2dw12 fifo: %s" % str(e))
          continue

Each attempt outcome (a transport exception, or a status response) is an
input to the model; the loop semantics over the five outcomes is embedded
as `queryLoop`. -/

structure StatusParams where
  clock : Nat
  query_ticks : Nat
  next_sequence : Nat
  buffered : Nat
  fifo : Nat
  limit_count : Nat
deriving DecidableEq

inductive QueryOutcome where
  | err (msg : String)
  | ok (p : StatusParams)
deriving DecidableEq

/-- Python: `params.get("fifo", 0) & 0x7F` -/
def fifoOf (p : StatusParams) : Nat := p.fifo.land 0x7F

/-- Python: `"Unable to query lis2dw12 fifo: %s" % str(e)` -/
def statusErrMsg (e : String) : String := "Unable to query lis2dw12 fifo: " ++ e

/-- The empty transport-error message (placeholder for the unreachable
zero-attempt case of the loop model). -/
def emptyMsg : String := ""

/-- Concrete transport-error messages used in witnesses and
counterexamples. -/
def msgA : String := "a"

def msgB : String := "b"

def msgC : String := "c"

def msgD : String := "d"

def msgE : String := "e"

/-- An attempt that returned a response whose masked fifo depth is <= 32
(the `break` condition of the loop). -/
def acceptedOutcome : QueryOutcome → Bool
  | .err _ => false
  | .ok p => fifoOf p ≤ 32

def isErrOutcome : QueryOutcome → Bool
  | .err _ => true
  | .ok _ => false

/-- The retry loop over the list of per-attempt outcomes (the Python code
always runs it with exactly five).  A non-final response with fifo > 32
does not break; a final response is used whatever its fifo depth; a final
exception raises the command error naming that exception. -/
def queryLoop : List QueryOutcome → Except String StatusParams
  | [] => .error (statusErrMsg emptyMsg)
  | o :: rest =>
    match o, rest with
    | .ok p, [] => .ok p
    | .err e, [] => .error (statusErrMsg e)
    | .ok p, _ :: _ => if fifoOf p ≤ 32 then .ok p else queryLoop rest
    | .err _, _ :: _ => queryLoop rest

def attempts5 (o1 o2 o3 o4 o5 : QueryOutcome) : List QueryOutcome :=
  [o1, o2, o3, o4, o5]

/-! ## Clock update tail (lis2dw12.py, `_update_clock` lines 292-327)

State mutated by `_update_clock` after a successful poll.  The
`ClockSyncRegression` object lives in the klippy `bulk_sensor` module
(an external collaborator); the model records the points fed to its
`update` method, which is exactly what the claims are about.
`clock32_to_clock64` is likewise external (the MCU clock oracle); the
model takes the reconstructed 64-bit tick directly as `p.clock`. -/

structure LisState where
  last_sequence : Nat
  last_limit_count : Nat
  max_query_duration : Nat
  clock_sync : List (ℚ × ℚ)
  last_chip_clock : ℚ
deriving DecidableEq

/-- The `(mcu tick midpoint, chip sample count)` point that an accepted
poll feeds into `ClockSyncRegression.update`:
`float(mcu_clock + duration // 2)` and
`float(sequence * SAMPLES_PER_BLOCK + buffered // BYTES_PER_SAMPLE + fifo + 1)`. -/
def feedPoint (st : LisState) (p : StatusParams) : ℚ × ℚ :=
  let sequence := updateSequence st.last_sequence p.next_sequence
  let msg_count := sequence * 8 + p.buffered / 6 + fifoOf p
  (((p.clock + p.query_ticks / 2 : Nat) : ℚ), ((msg_count + 1 : Nat) : ℚ))

/-- Tail of `_update_clock` from the sequence update on: sequence and limit-count
reconciliation always happen; the duration filter then either skips the
regressor update (doubling `max_query_duration` with the configured floor
`minTicks = seconds_to_clock(0.000005)`) or feeds the point and sets
`max_query_duration = 2 * duration`. -/
def updateClockTail (st : LisState) (p : StatusParams) (minTicks : Nat) : LisState :=
  let sequence := updateSequence st.last_sequence p.next_sequence
  let limit := updateSequence st.last_limit_count p.limit_count
  if st.max_query_duration < p.query_ticks then
    { st with
      last_sequence := sequence
      last_limit_count := limit
      max_query_duration := max (2 * st.max_query_duration) minTicks }
  else
    { st with
      last_sequence := sequence
      last_limit_count := limit
      max_query_duration := 2 * p.query_ticks
      clock_sync := st.clock_sync ++ [feedPoint st p]
      last_chip_clock := (feedPoint st p).2 }

/-! ## Sample Block Decoder (lis2dw12.py, `extract_samples` lines 215-275) -/

/-- One `lis2dw12_data` response: `{sequence: u16, payload bytes}`
(`_handle_lis2dw12_data` appends these to `self.samples` in arrival
order). -/
structure RawBlock where
  sequence : Nat
  data : List Nat
deriving DecidableEq

/-- The loop `for i in range(0, len(d), BYTES_PER_SAMPLE)` with the
`i + BYTES_PER_SAMPLE > len(d)` break: successive complete 6-byte units,
a trailing partial unit dropped. -/
def chunks6 : List Nat → List (Nat × Nat × Nat × Nat × Nat × Nat)
  | b0 :: b1 :: b2 :: b3 :: b4 :: b5 :: rest => (b0, b1, b2, b3, b4, b5) :: chunks6 rest
  | _ => []

/-- Python: `rx = rx if rx < 0x8000 else rx - 0x10000` -/
def toSigned16 (v : Nat) : Int :=
  if v < 0x8000 then (v : Int) else (v : Int) - 0x10000

/-- Per-block sequence reconciliation inside `extract_samples`:
  seq_diff = (self.last_sequence - params.get("sequence", 0)) & 0xFFFF
  seq_diff -= (seq_diff & 0x8000) << 1
  seq = self.last_sequence - seq_diff
On Python ints, `x & 0xFFFF` is `x mod 65536` (also for negative `x`),
and for `d` in `[0, 65535]`, `(d & 0x8000) << 1` is `65536` exactly when
`d >= 32768`. -/
def seqReconcile (last : Nat) (ps : Nat) : Int :=
  let d := ((last : Int) - (ps : Int)) % 65536
  let sd := d - (if 32768 ≤ d then 65536 else 0)
  (last : Int) - sd

structure Sample where
  time : ℚ
  x : ℚ
  y : ℚ
  z : ℚ
deriving DecidableEq

/-- One entry of `self.axes_map`: a raw-axis index in {0,1,2} and a signed
scale factor. -/
structure AxesMap where
  x : Fin 3 × ℚ
  y : Fin 3 × ℚ
  z : Fin 3 × ℚ
deriving DecidableEq

/-- Configuration `axes_map = x,y,z` with scale factor 1.0 per axis. -/
def identityAxesMap : AxesMap := ⟨(0, 1), (1, 1), (2, 1)⟩

/-- Python: `raw_xyz[int(pos)]` -/
def selAxis (r : Int × Int × Int) (i : Fin 3) : Int :=
  [r.1, r.2.1, r.2.2].get i

/-- The three signed 16-bit raw fields of one 6-byte unit
(`extract_samples` lines 244-258): low bytes masked with 0xFC to drop the
2 status bits, high bytes with 0xFF, low/high pairing per axis,
twos-complement sign extension. -/
def decodeRaw (u : Nat × Nat × Nat × Nat × Nat × Nat) : Int × Int × Int :=
  let (b0, b1, b2, b3, b4, b5) := u
  (toSigned16 ((b0 &&& 0xFC) ||| ((b3 &&& 0xFF) <<< 8)),
   toSigned16 ((b1 &&& 0xFC) ||| ((b4 &&& 0xFF) <<< 8)),
   toSigned16 ((b2 &&& 0xFC) ||| ((b5 &&& 0xFF) <<< 8)))

/-- Decode of one 6-byte unit and timestamp synthesis (`extract_samples`
loop body, lines 244-271): raw field extraction, axis remap, `scale / 4`
compensation, and
`ptime = time_base + (msg_cdiff + sample_offset) * inv_freq`. -/
def mkSample (am : AxesMap) (time_base inv_freq msg_cdiff : ℚ) (j : Nat)
    (u : Nat × Nat × Nat × Nat × Nat × Nat) : Sample :=
  let raw := decodeRaw u
  { time := time_base + (msg_cdiff + (j : ℚ)) * inv_freq
    x := (selAxis raw am.x.1 : ℚ) * am.x.2 / 4
    y := (selAxis raw am.y.1 : ℚ) * am.y.2 / 4
    z := (selAxis raw am.z.1 : ℚ) * am.z.2 / 4 }

/-- Decode of one raw block: reconciled block index, then
`msg_cdiff = float(seq) * float(SAMPLES_PER_BLOCK) - chip_base`, then the
per-unit loop.  `j` is `i // BYTES_PER_SAMPLE`, the intra-block sample
offset. -/
def decodeBlock (am : AxesMap) (last : Nat) (time_base chip_base inv_freq : ℚ)
    (blk : RawBlock) : List Sample :=
  let seq := seqReconcile last blk.sequence
  let msg_cdiff : ℚ := (seq : ℚ) * 8 - chip_base
  (chunks6 blk.data).enum.map (fun ju => mkSample am time_base inv_freq msg_cdiff ju.1 ju.2)

/-- The sample list built by `extract_samples` once the time translation
is available: per-block decodes concatenated in arrival order of the raw
blocks (the preallocated `samples` list is filled left to right and
truncated to `count`). -/
def extractOk (am : AxesMap) (last : Nat) (time_base chip_base inv_freq : ℚ)
    (blocks : List RawBlock) : List Sample :=
  (blocks.map (decodeBlock am last time_base chip_base inv_freq)).flatten

/-- Errors that `extract_samples` can surface: the command error raised by
`raise self.printer.command_error(...)`, distinguished by constructor from
the `ZeroDivisionError` arithmetic fault that
`ClockSyncRegression.get_time_translation` raises internally. -/
inductive LisError where
  | commandError (msg : String)
  | zeroDivision
deriving DecidableEq

def clockNotSyncedMsg : String :=
  "LIS2DW12: Clock synchronization not ready. Not enough data for timing translation. Wait for more samples or check sensor connection."

/-- Embeds `extract_samples` (lines 215-275).  The clock translation attempt is
an input: `.error ()` models `get_time_translation()` raising
`ZeroDivisionError` (fewer than two distinct points / degenerate fit in
the external `ClockSyncRegression`), which the code catches and converts
into a command error. -/
def extract_samples (tr : Except Unit (ℚ × ℚ × ℚ)) (am : AxesMap) (last : Nat)
    (blocks : List RawBlock) : Except LisError (List Sample) :=
  match tr with
  | .error _ => .error (.commandError clockNotSyncedMsg)
  | .ok (time_base, chip_base, inv_freq) =>
      .ok (extractOk am last time_base chip_base inv_freq blocks)

structure BatchResult where
  data : List Sample
  errors : Nat
  overflows : Nat
deriving DecidableEq

/-- Embeds `_process_batch` (lines 138-153) after `_update_clock`: an empty raw
buffer returns the empty dict (`none` here); otherwise any exception from
`extract_samples` is caught and the batch is returned with empty sample
data. -/
def process_batch (tr : Except Unit (ℚ × ℚ × ℚ)) (am : AxesMap) (last : Nat)
    (raw_samples : List RawBlock) (errors overflows : Nat) : Option BatchResult :=
  if raw_samples.isEmpty then none
  else
    match extract_samples tr am last raw_samples with
    | .error _ => some ⟨[], errors, overflows⟩
    | .ok s => some ⟨s, errors, overflows⟩

/-! ## Threshold event emission (cs1237.py, `_handle_cs1237_report`
lines 250-278)

Python:
  self.sensor_state = int(params.get("state", 0))
  ...
  if self.sensor_state == SCRATCH_STATE_ERR:
      self.printer.send_event("CS1237:scratch_notice", None)
  elif self.sensor_state == BLOCK_FILAMENT_ERR:
      self.printer.send_event("CS1237:block_filament_notice", None)
  elif self.sensor_state == HEAD_BLOCK_STATE_ERR:
      self.printer.send_event("CS1237:head_block_notice", None)

with SCRATCH_STATE_ERR = 2 | 0x80 = 130, BLOCK_FILAMENT_ERR = 4 | 0x80 =
132, HEAD_BLOCK_STATE_ERR = 8 | 0x80 = 136. -/

def SCRATCH_STATE_ERR : Nat := 130
def BLOCK_FILAMENT_ERR : Nat := 132
def HEAD_BLOCK_STATE_ERR : Nat := 136

inductive BandEvent where
  | scratch_notice
  | block_filament_notice
  | head_block_notice
deriving DecidableEq

/-- Events sent by one invocation of `_handle_cs1237_report` for a report
carrying state `s`. -/
def reportEvents (s : Nat) : List BandEvent :=
  if s = SCRATCH_STATE_ERR then [.scratch_notice]
  else if s = BLOCK_FILAMENT_ERR then [.block_filament_notice]
  else if s = HEAD_BLOCK_STATE_ERR then [.head_block_notice]
  else []

/-- Events sent over a stream of reports: the handler runs once per
report, and its emission depends only on the state of that report (the stored
`sensor_state` is overwritten but never compared with the previous
value). -/
def processReports (states : List Nat) : List BandEvent :=
  (states.map reportEvents).flatten

/-- Modelled from the spec: the edge-triggered emitter the claim
describes (emit one event when the band of a report differs from the stored
last-seen band, then update the stored band).  Used only for comparison
with `processReports`; it does not appear in the source. -/
def specEdgeEvents (last_band : Nat) : List Nat → List BandEvent
  | [] => []
  | s :: rest =>
      (if s ≠ last_band then reportEvents s else []) ++ specEdgeEvents s rest

/-! ## Completion slot (cs1237.py, `cmd_g9123` lines 410-425,
`_handle_ready` lines 133-156, `_handle_cs1237_diff` lines 281-288)

`self._query_complete` is `None` or a reactor completion; the completion
itself is unfilled or holds the response params (modelled as a `Nat`
payload).  The reactor primitives (`reactor.completion()`,
`completion.complete`, `completion.wait`) are external; the embedded
transitions are exactly the source lines that call them. -/

structure SlotState where
  pending : Option (Option Nat)
deriving DecidableEq

inductive SlotEv where
  /-- Python: `self._query_complete = reactor.completion()` -/
  | begin
  /-- The `wait` call reaching its deadline, followed by the `finally:`
  `self._query_complete = None` -/
  | waitTimeout
  /-- Handler `_handle_cs1237_diff`: `if self._query_complete:
  self._query_complete.complete(params)` -/
  | complete (p : Nat)
deriving DecidableEq

def slotStep (s : SlotState) : SlotEv → SlotState
  | .begin => ⟨some none⟩
  | .waitTimeout => ⟨none⟩
  | .complete p =>
      match s.pending with
      | some _ => ⟨some (some p)⟩
      | none => s

def slotRun (s : SlotState) (evs : List SlotEv) : SlotState :=
  evs.foldl slotStep s

inductive SlotErr where
  | alreadyPending
deriving DecidableEq

/-- Slot creation as the source performs it (`cmd_g9123` line 416 and
`_handle_ready` line 143): a fresh completion is assigned
unconditionally, with no check of an existing slot and no error path. -/
def codeBegin (_s : SlotState) : Except SlotErr SlotState :=
  .ok ⟨some none⟩

/-- Modelled from the spec: the `begin()` the claim describes, failing
with AlreadyPending when an unconsumed slot exists.  Used only for
comparison with `codeBegin`; it does not appear in the source. -/
def specBegin (s : SlotState) : Except SlotErr SlotState :=
  if s.pending.isSome then .error .alreadyPending else .ok ⟨some none⟩

/-! ## Startup self-check (cs1237.py, `_handle_ready` lines 133-156) -/

structure ReadyResult where
  /-- whether `self.printer.invoke_shutdown(...)` was called -/
  shutdown : Bool
  /-- last state sent via `_enable_cs1237` -/
  enableState : Nat
  /-- Value of `self._query_complete` after the handler returns -/
  pending : Option (Option Nat)
deriving DecidableEq

/-- Embeds `_handle_ready`: the wait outcome is an input — `some flag` when a
`cs1237_checkself_flag` response completed the slot before the 2-second
deadline (`flag` is `int(params.get("flag", 0))`), `none` when the wait
timed out (the reactor returns no params) or the send raised.  The
`finally:` block disables the sensor and clears the slot on every path;
shutdown is invoked only on a received response whose flag is 0. -/
def handleReady (outcome : Option Int) : ReadyResult :=
  let afterFinally : ReadyResult := { shutdown := false, enableState := 0, pending := none }
  match outcome with
  | some flag =>
      if flag = 0 then { afterFinally with shutdown := true } else afterFinally
  | none => afterFinally

/-! ## Auxiliary definitions for the theorems -/

/-- The states for which `_handle_cs1237_report` sends an event. -/
def isBandErrState (t : Nat) : Bool :=
  t == SCRATCH_STATE_ERR || t == BLOCK_FILAMENT_ERR || t == HEAD_BLOCK_STATE_ERR

/-- Whether the retry loop raised (`raise self.printer.command_error(...)`). -/
def isErrorResult (r : Except String StatusParams) : Bool :=
  match r with
  | .error _ => true
  | .ok _ => false

/-- A status response with acceptable fifo depth (5 <= 32). -/
def pLo : StatusParams := ⟨0, 0, 0, 0, 5, 0⟩

/-- A status response with excessive fifo depth (100 > 32). -/
def pHi : StatusParams := ⟨0, 0, 0, 0, 100, 0⟩

/-- The 6-byte unit carrying raw `(100, -200, 32700)` in the packed
layout whose bottom 2 bits per low byte are status bits: each 16-bit
field holds `4 * value mod 2^16`
(`4*100 = 0x0190`, `4*(-200) mod 2^16 = 0xFCE0`, `4*32700 mod 2^16 = 0xFEF0`),
low bytes first, then high bytes. -/
def c3Bytes : List Nat := [0x90, 0xE0, 0xF0, 0x01, 0xFC, 0xFE]

/-- Two raw blocks whose arrival order is the reverse of their
reconciled-sequence order (sequence 2 arrives before sequence 1). -/
def cexBlocks : List RawBlock := [⟨2, [0, 0, 0, 0, 0, 0]⟩, ⟨1, [0, 0, 0, 0, 0, 0]⟩]

/-- The virtual sample index `seq * SAMPLES_PER_BLOCK + intra-block
offset` of each decoded sample of a block, as a rational; the
timestamp of the sample is `time_base + (index - chip_base) * inv_freq`. -/
def blockIdx (last : Nat) (b : RawBlock) : List ℚ :=
  (List.range (chunks6 b.data).length).map
    (fun (j : Nat) => (seqReconcile last b.sequence : ℚ) * 8 + (j : ℚ))

/-! # Theorems -/

/-- Claim C1: for every prior reconciled value `last` and every 16-bit
`next_sequence`, the sequence update in `_update_clock` is non-decreasing,
and whenever the true advance `d` since the prior observation satisfies
`0 <= d < 32768` (so `next_sequence = (last + d) mod 2^16`), the update
recovers the true count `last + d`. -/
theorem c1_sequence_reconcile (last ns : Nat) (hns : ns < 65536) :
    last ≤ updateSequence last ns ∧
    ∀ d : Nat, d < 32768 → ns = (last + d) % 65536 →
      updateSequence last ns = last + d := by
  simp only [updateSequence]
  constructor
  · split <;> omega
  · intro d hd hdns
    split <;> omega

/-- Witness for C1 at `last = 70000`, `next_sequence = 4465`, true
advance `d = 1`. -/
theorem c1_sequence_reconcile_witness : updateSequence 70000 4465 = 70001 :=
  (c1_sequence_reconcile 70000 4465 (by decide)).2 1 (by decide) (by decide)

/-- Claim C6: on a successful status poll, if the query duration exceeds
the stored `max_query_duration` then `max_query_duration` is doubled with
the configured floor, the point is not fed into the clock-sync regressor
(whose state, and the last chip clock, are unchanged) while
`last_sequence` and `last_limit_count` are still updated; otherwise the
point is fed and `max_query_duration` becomes exactly `2 * duration`. -/
theorem c6_duration_filter (st : LisState) (p : StatusParams) (minTicks : Nat) :
    (st.max_query_duration < p.query_ticks →
      (updateClockTail st p minTicks).clock_sync = st.clock_sync ∧
      (updateClockTail st p minTicks).last_chip_clock = st.last_chip_clock ∧
      (updateClockTail st p minTicks).max_query_duration
        = max (2 * st.max_query_duration) minTicks ∧
      minTicks ≤ (updateClockTail st p minTicks).max_query_duration ∧
      (updateClockTail st p minTicks).last_sequence
        = updateSequence st.last_sequence p.next_sequence ∧
      (updateClockTail st p minTicks).last_limit_count
        = updateSequence st.last_limit_count p.limit_count) ∧
    (p.query_ticks ≤ st.max_query_duration →
      (updateClockTail st p minTicks).clock_sync
        = st.clock_sync ++ [feedPoint st p] ∧
      (updateClockTail st p minTicks).max_query_duration = 2 * p.query_ticks ∧
      (updateClockTail st p minTicks).last_sequence
        = updateSequence st.last_sequence p.next_sequence ∧
      (updateClockTail st p minTicks).last_limit_count
        = updateSequence st.last_limit_count p.limit_count) := by
  constructor
  · intro h
    simp [updateClockTail, h]
  · intro h
    simp [updateClockTail, Nat.not_lt.mpr h]

/-- Witness for C6: a skipped (slow) poll with `max_query_duration = 10`,
duration 11, floor 3, leaves the regressor untouched; an accepted poll
with duration 10 feeds it. -/
theorem c6_duration_filter_witness :
    (updateClockTail ⟨0, 0, 10, [], 0⟩ ⟨100, 11, 1, 0, 2, 0⟩ 3).clock_sync = [] ∧
    (updateClockTail ⟨0, 0, 10, [], 0⟩ ⟨100, 11, 1, 0, 2, 0⟩ 3).max_query_duration = 20 ∧
    (updateClockTail ⟨0, 0, 10, [], 0⟩ ⟨100, 10, 1, 0, 2, 0⟩ 3).max_query_duration = 20 :=
  ⟨((c6_duration_filter ⟨0, 0, 10, [], 0⟩ ⟨100, 11, 1, 0, 2, 0⟩ 3).1 (by decide)).1,
   ((c6_duration_filter ⟨0, 0, 10, [], 0⟩ ⟨100, 11, 1, 0, 2, 0⟩ 3).1 (by decide)).2.2.1,
   ((c6_duration_filter ⟨0, 0, 10, [], 0⟩ ⟨100, 10, 1, 0, 2, 0⟩ 3).2 (by decide)).2.1⟩

/-- Claim C8 counterexample: with a pending slot that already exists and
holds an unconsumed response (`some (some 7)`), the slot creation of the source
 returns a fresh slot and no error, where the claimed `begin()`
would fail with AlreadyPending. -/
theorem c8_counterexample :
    codeBegin ⟨some (some 7)⟩ = .ok ⟨some none⟩ ∧
    specBegin ⟨some (some 7)⟩ = .error .alreadyPending ∧
    codeBegin ⟨some (some 7)⟩ ≠ specBegin ⟨some (some 7)⟩ := by
  refine ⟨rfl, rfl, by simp [codeBegin, specBegin]⟩

/-- Claim C8 (corrected): creating the pending slot never fails; from any
state — a pending slot present or not — it unconditionally installs a
fresh unfilled slot, silently discarding any existing unconsumed one. -/
theorem c8_begin_replaces (s : SlotState) :
    codeBegin s = .ok ⟨some none⟩ ∧ slotStep s .begin = ⟨some none⟩ :=
  ⟨rfl, rfl⟩

/-- Claim C9 counterexample: after `begin`, a timed-out wait, and a
subsequent unrelated `begin`, a late `complete(42)` for the first query
fills the second slot — the stale response is misattributed, so the
trace with the late completion ends in a different state than the trace
without it. -/
theorem c9_counterexample :
    slotRun ⟨none⟩ [.begin, .waitTimeout, .begin, .complete 42] = ⟨some (some 42)⟩ ∧
    slotRun ⟨none⟩ [.begin, .waitTimeout, .begin] = ⟨some none⟩ ∧
    slotRun ⟨none⟩ [.begin, .waitTimeout, .begin, .complete 42]
      ≠ slotRun ⟨none⟩ [.begin, .waitTimeout, .begin] := by
  refine ⟨rfl, rfl, by decide⟩

/-- Claim C9 (corrected): a wait that times out leaves the pending slot
cleared before the operation returns, and a late `complete` arriving
while the slot is cleared — after the timeout and before the next
`begin()` — is dropped as a no-op, so a subsequent `begin()` still gets a
fresh unfilled slot.  (A late `complete` arriving after the next
`begin()` fills that new slot instead: see the counterexample.) -/
theorem c9_timeout_clears (s : SlotState) (p : Nat) :
    slotStep s .waitTimeout = ⟨none⟩ ∧
    slotRun s [.waitTimeout, .complete p] = ⟨none⟩ ∧
    slotRun s [.waitTimeout, .complete p, .begin] = ⟨some none⟩ :=
  ⟨rfl, rfl, rfl⟩

/-- Claim C10: in the startup self-check, shutdown is invoked exactly
when a checkself response arrived with flag 0; a timed-out wait (no
params) invokes no shutdown; on every path the sensor is disabled and the
pending slot cleared. -/
theorem c10_checkself_shutdown (o : Option Int) :
    ((handleReady o).shutdown = true ↔ o = some 0) ∧
    (handleReady o).enableState = 0 ∧
    (handleReady o).pending = none := by
  rcases o with _ | flag
  · simp [handleReady]
  · by_cases h : flag = 0 <;> simp [handleReady, h]

/-- Witness for C10 at the two interesting outcomes: a received flag-0
response shuts down; a timeout does not. -/
theorem c10_checkself_shutdown_witness :
    (handleReady (some 0)).shutdown = true ∧ (handleReady none).pending = none :=
  ⟨((c10_checkself_shutdown (some 0)).1).mpr rfl,
   (c10_checkself_shutdown none).2.2⟩

/-- Claim C5 counterexample.  First trace: the first attempt returns a
response (fifo 100 > 32, so no break) and the remaining four raise — the
loop raises the device-unresponsive error naming the last underlying
error, although not all 5 attempts failed.  Second trace: the first four
attempts raise and the fifth returns fifo 100 — no attempt produced an
acceptable response, yet no error is raised and the fifth response is
used.  Either trace refutes the claimed "if and only if all 5 attempts
fail does it raise". -/
theorem c5_counterexample :
    (isErrorResult (queryLoop (attempts5 (.ok pHi) (.err msgA) (.err msgB) (.err msgC) (.err msgD))) = true ∧
      (attempts5 (.ok pHi) (.err msgA) (.err msgB) (.err msgC) (.err msgD)).all isErrOutcome = false ∧
      queryLoop (attempts5 (.ok pHi) (.err msgA) (.err msgB) (.err msgC) (.err msgD))
        = .error (statusErrMsg msgD)) ∧
    (isErrorResult (queryLoop (attempts5 (.err msgA) (.err msgB) (.err msgC) (.err msgD) (.ok pHi))) = false ∧
      (attempts5 (.err msgA) (.err msgB) (.err msgC) (.err msgD) (.ok pHi)).all
        (fun o => !acceptedOutcome o) = true ∧
      queryLoop (attempts5 (.err msgA) (.err msgB) (.err msgC) (.err msgD) (.ok pHi)) = .ok pHi) := by
  refine ⟨⟨?_, by decide, ?_⟩, ⟨?_, by decide, ?_⟩⟩ <;> rfl

/-- Claim C5 (corrected): the status poller issues the same query up to 5
times; it raises the device-unresponsive error exactly when the 5th
attempt raises and no earlier attempt returned a response with fifo depth
at most 32, and the error names the underlying error of the 5th attempt; an
earlier response with acceptable fifo depth breaks the loop, raises
nothing, and is the response used.  (A 5th-attempt response is used even
when its fifo depth exceeds 32.) -/
theorem queryLoop_err_cons (e : String) (o : QueryOutcome) (rest : List QueryOutcome) :
    queryLoop (.err e :: o :: rest) = queryLoop (o :: rest) := rfl

theorem queryLoop_ok_cons (p : StatusParams) (o : QueryOutcome) (rest : List QueryOutcome) :
    queryLoop (.ok p :: o :: rest)
      = if fifoOf p ≤ 32 then .ok p else queryLoop (o :: rest) := rfl

theorem queryLoop_err_append (e2 : String) (l : List QueryOutcome) (x : QueryOutcome) :
    queryLoop (.err e2 :: (l ++ [x])) = queryLoop (l ++ [x]) := by
  cases l <;> rfl

theorem queryLoop_ok_append (p : StatusParams) (l : List QueryOutcome) (x : QueryOutcome) :
    queryLoop (.ok p :: (l ++ [x]))
      = if fifoOf p ≤ 32 then .ok p else queryLoop (l ++ [x]) := by
  cases l <;> rfl

/-- An attempt with an acceptable fifo depth breaks the loop and its
response is used, whatever comes after. -/
theorem queryLoop_accepted_head (p : StatusParams) (rest : List QueryOutcome)
    (hf : fifoOf p ≤ 32) : queryLoop (.ok p :: rest) = .ok p := by
  cases rest with
  | nil => rfl
  | cons o2 rs => rw [queryLoop_ok_cons, if_pos hf]

/-- The loop raises exactly when every attempt before the last one fails
to produce an acceptable response and the last attempt raises. -/
theorem queryLoop_isError (l : List QueryOutcome) (hne : l ≠ []) :
    isErrorResult (queryLoop l) = true ↔
      (∀ o ∈ l.dropLast, acceptedOutcome o = false) ∧
      isErrOutcome (l.getLast hne) = true := by
  induction l with
  | nil => exact absurd rfl hne
  | cons o rest ih =>
    cases rest with
    | nil =>
      cases o with
      | err e => simp [queryLoop, isErrorResult, isErrOutcome]
      | ok p => simp [queryLoop, isErrorResult, isErrOutcome]
    | cons o2 rest2 =>
      have hne2 : o2 :: rest2 ≠ [] := List.cons_ne_nil _ _
      rw [List.dropLast_cons₂, List.forall_mem_cons, List.getLast_cons hne2]
      cases o with
      | err e =>
        rw [queryLoop_err_cons, ih hne2]
        simp [acceptedOutcome]
      | ok p =>
        rw [queryLoop_ok_cons]
        by_cases hf : fifoOf p ≤ 32
        · rw [if_pos hf]
          simp [isErrorResult, acceptedOutcome, hf]
        · rw [if_neg hf, ih hne2]
          simp [acceptedOutcome, hf]

/-- When no earlier attempt was acceptable and the final attempt raises
`e`, the loop raises the command error naming `e`. -/
theorem queryLoop_all_unaccepted_err (e : String) :
    ∀ (init : List QueryOutcome), (∀ o ∈ init, acceptedOutcome o = false) →
      queryLoop (init ++ [.err e]) = .error (statusErrMsg e)
  | [], _ => rfl
  | .err e2 :: rest, h => by
      have ih := queryLoop_all_unaccepted_err e rest
        (fun o ho => h o (List.mem_cons_of_mem _ ho))
      rw [List.cons_append, queryLoop_err_append]
      exact ih
  | .ok p :: rest, h => by
      have h1 := h (.ok p) (List.mem_cons_self _ _)
      have hf : ¬ fifoOf p ≤ 32 := by simpa [acceptedOutcome] using h1
      have ih := queryLoop_all_unaccepted_err e rest
        (fun o ho => h o (List.mem_cons_of_mem _ ho))
      rw [List.cons_append, queryLoop_ok_append, if_neg hf]
      exact ih

/-- Claim C5 (corrected): the status poller issues the same query up to 5
times; it raises the device-unresponsive error exactly when the 5th
attempt raises and no earlier attempt returned a response with fifo depth
at most 32, and the error names the underlying error of the 5th attempt; an
earlier response with acceptable fifo depth breaks the loop, raises
nothing, and is the response used.  (A 5th-attempt response is used even
when its fifo depth exceeds 32.) -/
theorem c5_retry_loop (o1 o2 o3 o4 o5 : QueryOutcome) :
    (isErrorResult (queryLoop (attempts5 o1 o2 o3 o4 o5)) = true ↔
      acceptedOutcome o1 = false ∧ acceptedOutcome o2 = false ∧
      acceptedOutcome o3 = false ∧ acceptedOutcome o4 = false ∧
      isErrOutcome o5 = true) ∧
    (∀ e, o5 = .err e →
      acceptedOutcome o1 = false → acceptedOutcome o2 = false →
      acceptedOutcome o3 = false → acceptedOutcome o4 = false →
      queryLoop (attempts5 o1 o2 o3 o4 o5) = .error (statusErrMsg e)) ∧
    (∀ p, o1 = .ok p → fifoOf p ≤ 32 →
      queryLoop (attempts5 o1 o2 o3 o4 o5) = .ok p) := by
  refine ⟨?_, ?_, ?_⟩
  · have h := queryLoop_isError (attempts5 o1 o2 o3 o4 o5) (by simp [attempts5])
    simpa [attempts5, List.dropLast_cons₂, List.forall_mem_cons, List.getLast,
      and_assoc] using h
  · intro e he h1 h2 h3 h4
    subst he
    have hsplit : attempts5 o1 o2 o3 o4 (.err e) = [o1, o2, o3, o4] ++ [.err e] := rfl
    rw [hsplit]
    exact queryLoop_all_unaccepted_err e [o1, o2, o3, o4]
      (by simp [List.forall_mem_cons, h1, h2, h3, h4])
  · intro p hp hf
    subst hp
    exact queryLoop_accepted_head p _ hf

/-- Witness for C5: an acceptable response on the first attempt is used
and raises no error, and an all-failures run raises naming the last
error. -/
theorem c5_retry_loop_witness :
    queryLoop (attempts5 (.ok pLo) (.err msgA) (.err msgB) (.err msgC) (.err msgD)) = .ok pLo ∧
    queryLoop (attempts5 (.err msgA) (.err msgB) (.err msgC) (.err msgD) (.err msgE))
      = .error (statusErrMsg msgE) :=
  ⟨(c5_retry_loop (.ok pLo) (.err msgA) (.err msgB) (.err msgC) (.err msgD)).2.2 pLo rfl (by decide),
   (c5_retry_loop (.err msgA) (.err msgB) (.err msgC) (.err msgD) (.err msgE)).2.1 msgE rfl
     (by decide) (by decide) (by decide) (by decide)⟩

/-- Claim C7 counterexample: two consecutive reports in the same error
band (`SCRATCH_STATE_ERR = 130`) make `_handle_cs1237_report` emit the
scratch event twice — the claimed edge-triggered emitter would emit it
once, so the output of the code differs from the claimed behaviour on this
stream. -/
theorem c7_counterexample :
    processReports [SCRATCH_STATE_ERR, SCRATCH_STATE_ERR]
      = [.scratch_notice, .scratch_notice] ∧
    specEdgeEvents 0 [SCRATCH_STATE_ERR, SCRATCH_STATE_ERR] = [.scratch_notice] ∧
    processReports [SCRATCH_STATE_ERR, SCRATCH_STATE_ERR]
      ≠ specEdgeEvents 0 [SCRATCH_STATE_ERR, SCRATCH_STATE_ERR] := by
  refine ⟨rfl, rfl, by decide⟩

/-- Claim C7 (corrected): the report handler is level-triggered, not
edge-triggered: it emits one domain event for every report whose state
equals one of the three error codes, including consecutive reports that
remain in the same band, and it keeps no last-band state (the emission
for a report is independent of all earlier reports). -/
theorem c7_level_triggered (s : Nat) (states : List Nat) :
    (processReports states).length = states.countP isBandErrState ∧
    processReports (s :: states) = reportEvents s ++ processReports states := by
  constructor
  · induction states with
    | nil => rfl
    | cons t rest ih =>
        have hlen : (reportEvents t).length = if isBandErrState t then 1 else 0 := by
          by_cases h1 : t = SCRATCH_STATE_ERR <;> by_cases h2 : t = BLOCK_FILAMENT_ERR <;>
            by_cases h3 : t = HEAD_BLOCK_STATE_ERR <;>
            simp_all [reportEvents, isBandErrState,
              SCRATCH_STATE_ERR, BLOCK_FILAMENT_ERR, HEAD_BLOCK_STATE_ERR]
        have hcons : processReports (t :: rest) = reportEvents t ++ processReports rest := by
          simp [processReports]
        rw [hcons, List.length_append, ih, List.countP_cons, hlen]
        omega
  · simp [processReports]

/-- Claim C4: when the clock-sync regressor cannot provide a time
translation (its `get_time_translation` raises `ZeroDivisionError`),
decoding a non-empty batch fails with the clock-not-synced command error,
which is a different error than the raw arithmetic fault; and whenever
decoding fails, `_process_batch` returns a result with empty sample data
to the batch consumer instead of propagating the exception. -/
theorem c4_clock_not_synced (am : AxesMap) (last : Nat) (blocks : List RawBlock)
    (errors overflows : Nat) (hne : blocks ≠ []) :
    extract_samples (.error ()) am last blocks
      = .error (.commandError clockNotSyncedMsg) ∧
    LisError.commandError clockNotSyncedMsg ≠ LisError.zeroDivision ∧
    (∀ tr : Except Unit (ℚ × ℚ × ℚ), ∀ err : LisError,
      extract_samples tr am last blocks = .error err →
      process_batch tr am last blocks errors overflows
        = some ⟨[], errors, overflows⟩) := by
  refine ⟨rfl, by simp, ?_⟩
  intro tr err htr
  have hempty : blocks.isEmpty = false := by
    cases blocks with
    | nil => exact absurd rfl hne
    | cons b bs => rfl
  rw [process_batch, if_neg (by simp [hempty]), htr]

/-- Witness for C4 with a one-block batch and the failing translation. -/
theorem c4_clock_not_synced_witness :
    extract_samples (.error ()) identityAxesMap 0 [⟨0, []⟩]
      = .error (.commandError clockNotSyncedMsg) ∧
    process_batch (.error ()) identityAxesMap 0 [⟨0, []⟩] 3 4 = some ⟨[], 3, 4⟩ :=
  ⟨(c4_clock_not_synced identityAxesMap 0 [⟨0, []⟩] 3 4 (by simp)).1,
   (c4_clock_not_synced identityAxesMap 0 [⟨0, []⟩] 3 4 (by simp)).2.2
     (.error ()) (.commandError clockNotSyncedMsg) rfl⟩

/-- Each complete 6-byte unit consumes 6 payload bytes. -/
theorem chunks6_len_le : ∀ (d : List Nat), 6 * (chunks6 d).length ≤ d.length
  | b0 :: b1 :: b2 :: b3 :: b4 :: b5 :: rest => by
      have ih := chunks6_len_le rest
      simp only [chunks6, List.length_cons]
      omega
  | [] => by
      have h : chunks6 [] = [] := rfl
      simp [h]
  | [a] => by
      have h : chunks6 [a] = [] := rfl
      simp [h]
  | [a, b] => by
      have h : chunks6 [a, b] = [] := rfl
      simp [h]
  | [a, b, c] => by
      have h : chunks6 [a, b, c] = [] := rfl
      simp [h]
  | [a, b, c, d] => by
      have h : chunks6 [a, b, c, d] = [] := rfl
      simp [h]
  | [a, b, c, d, e] => by
      have h : chunks6 [a, b, c, d, e] = [] := rfl
      simp [h]

/-- Mapping a function of the position only over `l.enum` is a map over
`range l.length`. -/
theorem enum_map_fst {α β : Type} (l : List α) (f : Nat → β) :
    l.enum.map (fun ju => f ju.1) = (List.range l.length).map f := by
  rw [List.enum_eq_zip_range]
  have h1 : (fun (ju : Nat × α) => f ju.1) = f ∘ Prod.fst := rfl
  rw [h1, ← List.map_map, List.map_fst_zip _ _ (by simp)]

/-- The timestamps of a decoded block are its virtual sample
indices translated affinely by the clock model. -/
theorem decodeBlock_times (am : AxesMap) (last : Nat) (tb cb invf : ℚ)
    (b : RawBlock) :
    (decodeBlock am last tb cb invf b).map Sample.time
      = (blockIdx last b).map (fun v => tb + (v - cb) * invf) := by
  simp only [decodeBlock, blockIdx]
  rw [List.map_map]
  have h1 : (Sample.time ∘ fun (ju : Nat × (Nat × Nat × Nat × Nat × Nat × Nat)) =>
        mkSample am tb invf ((seqReconcile last b.sequence : ℚ) * 8 - cb) ju.1 ju.2)
      = fun ju => tb + (((seqReconcile last b.sequence : ℚ) * 8 - cb) + (ju.1 : ℚ)) * invf := by
    funext ju
    rcases ju with ⟨j, b0, b1, b2, b3, b4, b5⟩
    rfl
  rw [h1, enum_map_fst (chunks6 b.data)
      (fun j => tb + (((seqReconcile last b.sequence : ℚ) * 8 - cb) + (j : ℚ)) * invf),
    List.map_map]
  apply List.map_congr_left
  intro j hj
  simp only [Function.comp]
  ring

/-- Virtual sample indices of blocks listed in strictly increasing
reconciled-sequence order, each with at most 8 samples, are strictly
increasing across the whole flattened list. -/
theorem pairwise_flatten_blockIdx (last : Nat) :
    ∀ (blocks : List RawBlock),
      blocks.Pairwise (fun b b' =>
        seqReconcile last b.sequence < seqReconcile last b'.sequence) →
      (∀ b ∈ blocks, b.data.length ≤ 48) →
      ((blocks.map (blockIdx last)).flatten).Pairwise (· < ·)
  | [], _, _ => by simp
  | b :: rest, hp, hlen => by
      rw [List.map_cons, List.flatten_cons, List.pairwise_append]
      obtain ⟨hhead, htail⟩ := List.pairwise_cons.mp hp
      refine ⟨?_, ?_, ?_⟩
      · refine List.Pairwise.map _ ?_ (List.pairwise_lt_range _)
        intro a c hac
        have hc : (a : ℚ) < (c : ℚ) := by exact_mod_cast hac
        linarith
      · exact pairwise_flatten_blockIdx last rest htail
          (fun x hx => hlen x (List.mem_cons_of_mem _ hx))
      · intro x hx y hy
        simp only [blockIdx, List.mem_map, List.mem_range] at hx
        obtain ⟨j, hj, rfl⟩ := hx
        rw [List.mem_flatten] at hy
        obtain ⟨l, hl, hyl⟩ := hy
        rw [List.mem_map] at hl
        obtain ⟨b2, hb2, rfl⟩ := hl
        simp only [blockIdx, List.mem_map, List.mem_range] at hyl
        obtain ⟨j2, hj2, rfl⟩ := hyl
        have hslt : seqReconcile last b.sequence < seqReconcile last b2.sequence :=
          hhead b2 hb2
        have hs1 : (seqReconcile last b.sequence : ℚ) + 1
            ≤ (seqReconcile last b2.sequence : ℚ) := by
          exact_mod_cast Int.add_one_le_iff.mpr hslt
        have hn : (chunks6 b.data).length ≤ 8 := by
          have h6 := chunks6_len_le b.data
          have h48 := hlen b (List.mem_cons_self _ _)
          omega
        have hj7 : (j : ℚ) ≤ 7 := by
          have hj' : j ≤ 7 := by omega
          exact_mod_cast hj'
        have hj2nn : (0 : ℚ) ≤ (j2 : ℚ) := Nat.cast_nonneg j2
        linarith

/-- Claim C2 (corrected): with a positive-rate clock model, the decoded
samples are time-ascending exactly when the raw blocks arrive in strictly
increasing reconciled-sequence order (no block holding more than the 8
samples of a full 48-byte payload): timestamps come from the reconciled
block index, but the output remains in arrival order, so ascending
ordering across block boundaries holds only for in-order arrival — it is
not restored for reordered arrivals (see the counterexample). -/
theorem c2_time_ascending (am : AxesMap) (last : Nat) (tb cb invf : ℚ)
    (blocks : List RawBlock) (hf : 0 < invf)
    (hseq : blocks.Pairwise (fun b b' =>
      seqReconcile last b.sequence < seqReconcile last b'.sequence))
    (hlen : ∀ b ∈ blocks, b.data.length ≤ 48) :
    ((extractOk am last tb cb invf blocks).map Sample.time).Pairwise (· < ·) := by
  unfold extractOk
  rw [List.map_flatten, List.map_map]
  have hfun : (List.map Sample.time ∘ decodeBlock am last tb cb invf)
      = fun b => (blockIdx last b).map (fun v => tb + (v - cb) * invf) := by
    funext b
    exact decodeBlock_times am last tb cb invf b
  rw [hfun]
  have hswap : (blocks.map fun b => (blockIdx last b).map (fun v => tb + (v - cb) * invf))
      = (blocks.map (blockIdx last)).map (List.map (fun v => tb + (v - cb) * invf)) := by
    rw [List.map_map]
    rfl
  rw [hswap, ← List.map_flatten]
  refine List.Pairwise.map _ ?_ (pairwise_flatten_blockIdx last blocks hseq hlen)
  intro a c hac
  have h8 : a - cb < c - cb := by linarith
  have h9 := mul_lt_mul_of_pos_right h8 hf
  linarith

/-- Witness for C2: two single-sample blocks arriving in reconciled
order (sequences 1 then 2) under the unit clock model. -/
theorem c2_time_ascending_witness :
    (0 : ℚ) < 1 ∧
    ([⟨1, [0, 0, 0, 0, 0, 0]⟩, ⟨2, [0, 0, 0, 0, 0, 0]⟩] : List RawBlock).Pairwise
      (fun b b' => seqReconcile 0 b.sequence < seqReconcile 0 b'.sequence) ∧
    (∀ b ∈ ([⟨1, [0, 0, 0, 0, 0, 0]⟩, ⟨2, [0, 0, 0, 0, 0, 0]⟩] : List RawBlock),
      b.data.length ≤ 48) ∧
    ((extractOk identityAxesMap 0 0 0 1
      [⟨1, [0, 0, 0, 0, 0, 0]⟩, ⟨2, [0, 0, 0, 0, 0, 0]⟩]).map Sample.time).Pairwise
        (· < ·) :=
  ⟨by decide, by decide, by decide,
   c2_time_ascending identityAxesMap 0 0 0 1 _ (by decide) (by decide) (by decide)⟩

/-- Claim C2 counterexample: two one-sample blocks arriving in the order
sequence 2 then sequence 1 (reconciled from `last_sequence = 0`) decode,
under the unit clock model, to timestamps `[16, 8]` — the output follows
arrival order, not reconciled-sequence order, so it is not
time-ascending. -/
theorem c2_counterexample :
    (extractOk identityAxesMap 0 0 0 1 cexBlocks).map Sample.time = [(16 : ℚ), 8] ∧
    ¬ (((extractOk identityAxesMap 0 0 0 1 cexBlocks).map Sample.time).Pairwise
        (· < ·)) := by
  have hs2 : seqReconcile 0 2 = 2 := by decide
  have hs1 : seqReconcile 0 1 = 1 := by decide
  have e1 : (extractOk identityAxesMap 0 0 0 1 cexBlocks).map Sample.time
      = [(16 : ℚ), 8] := by
    unfold extractOk cexBlocks
    simp only [List.map_cons, List.map_nil, List.flatten_cons, List.flatten_nil,
      List.append_nil, List.map_append]
    rw [decodeBlock_times, decodeBlock_times]
    have hr1 : List.range 1 = [0] := rfl
    simp [blockIdx, chunks6, hs1, hs2, hr1, Function.comp]
    norm_num
  refine ⟨e1, ?_⟩
  rw [e1]
  intro h
  have h16 := (List.pairwise_cons.mp h).1 8 (by simp)
  norm_num at h16

theorem selAxis_zero (r : Int × Int × Int) : selAxis r 0 = r.1 := rfl

theorem selAxis_one (r : Int × Int × Int) : selAxis r 1 = r.2.1 := rfl

theorem selAxis_two (r : Int × Int × Int) : selAxis r 2 = r.2.2 := rfl

/-- Evaluation of the decoder on the 6-byte unit `c3Bytes`: the 16-bit
fields are `0x0190`, `0xFCE0`, `0xFEF0`; sign extension subtracts
`0x10000` from the latter two (both at least `0x8000`), giving raw fields
`(400, -800, -272)`, and the `scale 1.0 / 4` compensation yields
`(100, -200, -68)`. -/
theorem decode_c3Bytes :
    (extractOk identityAxesMap 0 0 0 1 [⟨0, c3Bytes⟩]).map (fun s => (s.x, s.y, s.z))
      = [((100 : ℚ), (-200 : ℚ), (-68 : ℚ))] := by
  have hraw : decodeRaw (0x90, 0xE0, 0xF0, 0x01, 0xFC, 0xFE) = (400, -800, -272) := by
    decide
  simp only [extractOk, c3Bytes, decodeBlock, chunks6, List.map_cons, List.map_nil,
    List.flatten_cons, List.flatten_nil, List.append_nil, List.enum]
  simp [mkSample, hraw, identityAxesMap, selAxis_zero, selAxis_one, selAxis_two]
  norm_num

/-- Claim C3 (corrected): the 6-byte unit encoding raw
`(100, -200, 32700)` consistently with the `/4` low-bit compensation
(each 16-bit field holds `4 * value mod 2^16`) decodes with identity
axis map and scale 1.0 to `(100.0, -200.0, -68.0)`: the z field wraps
because `4 * 32700` exceeds 16 bits, and sign extension subtracts
`0x10000` exactly when the 16-bit field is at least `0x8000`, so the
decoded z is `((4 * 32700 mod 2^16) - 2^16) / 4 = -68`, not
`32700 - 65536`. -/
theorem c3_decode_roundtrip :
    (extractOk identityAxesMap 0 0 0 1 [⟨0, c3Bytes⟩]).map (fun s => (s.x, s.y, s.z))
      = [((100 : ℚ), (-200 : ℚ), (-68 : ℚ))] :=
  decode_c3Bytes

/-- Claim C3 counterexample: the decoded triple is not
`(100.0, -200.0, 32700 - 65536)` as claimed — the third component is
`-68`, not `-32836`. -/
theorem c3_counterexample :
    (extractOk identityAxesMap 0 0 0 1 [⟨0, c3Bytes⟩]).map (fun s => (s.x, s.y, s.z))
      ≠ [((100 : ℚ), (-200 : ℚ), ((32700 : ℚ) - 65536))] := by
  rw [decode_c3Bytes]
  intro h
  have h3 := List.head_eq_of_cons_eq h
  have hz := congrArg (fun t => t.2.2) h3
  norm_num at hz

end KobraS1
